import Mathlib

/-!
Verification of the SEIR simulator / parameter-estimation notebook
(`compartmental_models/SEIR Simulator with Parameter Estimation in Python.ipynb`).

The numerically meaningful code of the notebook is embedded shallowly:
exact rationals stand for Python floats wherever the computation is exact
field arithmetic, and `scipy.integrate.odeint` — an external compiled
adaptive solver, not code of this repository — is treated as an abstract
function constrained only by its documented contract (one output row per
requested time point, first row equal to the initial condition).
-/

namespace SEIR

/-- A compartment state `(S, E, I, R)`: the 4-vector `z` handled by
`ode_model` and the rows of the array returned by `odeint`. -/
structure State where
  S : ℚ
  E : ℚ
  I : ℚ
  R : ℚ
deriving DecidableEq, Repr, Inhabited

/-- Componentwise addition of states (used by concrete solvers). -/
def State.add (a b : State) : State :=
  ⟨a.S + b.S, a.E + b.E, a.I + b.I, a.R + b.R⟩

/-- Scaling of a state by a rational (used by concrete solvers). -/
def State.smul (c : ℚ) (a : State) : State :=
  ⟨c * a.S, c * a.E, c * a.I, c * a.R⟩

/-- The lmfit `Parameters` object of the notebook, reduced to the three
rate values `beta`, `sigma`, `gamma` that `ode_solver` reads from it. -/
structure Params where
  beta : ℚ
  sigma : ℚ
  gamma : ℚ
deriving DecidableEq, Repr

/-- `ode_model(z, t, beta, sigma, gamma)` from the notebook:
`N = S+E+I+R; dSdt = -beta*S*I/N; dEdt = beta*S*I/N - sigma*E;
dIdt = sigma*E - gamma*I; dRdt = gamma*I`. The time argument `t` is
accepted and ignored, as in the source. -/
def ode_model (z : State) (t : ℚ) (beta sigma gamma : ℚ) : State :=
  let N := z.S + z.E + z.I + z.R
  { S := -beta * z.S * z.I / N
    E := beta * z.S * z.I / N - sigma * z.E
    I := sigma * z.E - gamma * z.I
    R := gamma * z.I }

/-- The shape of `scipy.integrate.odeint` as called by `ode_solver`:
it receives the right-hand side, the initial state, the time grid and the
extra arguments `(beta, sigma, gamma)`, and returns one state per grid
point. `odeint` itself is external library code, so it is kept abstract. -/
abbrev OdeIntFn :=
  (State → ℚ → ℚ → ℚ → ℚ → State) → State → List ℚ → ℚ → ℚ → ℚ → List State

/-- Documented contract of `odeint`: the returned array contains one row
per requested time point. -/
def OdeIntLength (odeint : OdeIntFn) : Prop :=
  ∀ f y0 ts b s g, (odeint f y0 ts b s g).length = ts.length

/-- Documented contract of `odeint`: the first row of the returned array
is the initial condition `y0` itself. -/
def OdeIntFirstRow (odeint : OdeIntFn) : Prop :=
  ∀ f y0 ts b s g, ts ≠ [] → (odeint f y0 ts b s g).head? = some y0

/-- `ode_solver(t, initial_conditions, params)` from the notebook:
unpacks `(initE, initI, initR, initN)`, derives
`initS = initN - (initE + initI + initR)`, and hands the stacked initial
state to `odeint` together with the rate parameters. -/
def ode_solver (odeint : OdeIntFn) (t : List ℚ)
    (initial_conditions : ℚ × ℚ × ℚ × ℚ) (params : Params) : List State :=
  let initE := initial_conditions.1
  let initI := initial_conditions.2.1
  let initR := initial_conditions.2.2.1
  let initN := initial_conditions.2.2.2
  let initS := initN - (initE + initI + initR)
  odeint ode_model ⟨initS, initE, initI, initR⟩ t params.beta params.sigma params.gamma

/-- Explicit Euler steps over a time grid: a concrete, executable solver
of shape `OdeIntFn`, used to instantiate the abstract `odeint` in
witnesses. `eulerAux y t ts` returns the states at `t` and at each time
of `ts`. -/
def eulerAux (f : State → ℚ → ℚ → ℚ → ℚ → State) (b s g : ℚ) :
    State → ℚ → List ℚ → List State
  | y, _, [] => [y]
  | y, t, t' :: rest =>
      y :: eulerAux f b s g (State.add y (State.smul (t' - t) (f y t b s g))) t' rest

/-- A concrete solver of shape `OdeIntFn`: explicit Euler on the grid. -/
def odeintEuler : OdeIntFn := fun f y0 ts b s g =>
  match ts with
  | [] => []
  | t0 :: rest => eulerAux f b s g y0 t0 rest

theorem eulerAux_length (f : State → ℚ → ℚ → ℚ → ℚ → State) (b s g : ℚ) :
    ∀ (y : State) (t : ℚ) (ts : List ℚ),
      (eulerAux f b s g y t ts).length = ts.length + 1 := by
  intro y t ts
  induction ts generalizing y t with
  | nil => rfl
  | cons t' rest ih => simp [eulerAux, ih]

/-- The Euler solver returns one state per grid point. -/
theorem odeintEuler_length : OdeIntLength odeintEuler := by
  intro f y0 ts b s g
  cases ts with
  | nil => rfl
  | cons t0 rest => simp [odeintEuler, eulerAux_length]

/-- The Euler solver's first output row is the initial condition. -/
theorem odeintEuler_firstRow : OdeIntFirstRow odeintEuler := by
  intro f y0 ts b s g hts
  cases ts with
  | nil => exact absurd rfl hts
  | cons t0 rest => cases rest <;> rfl

/-- C1: the derivative function, applied to a state `(S, E, I, R)` with
`N = S+E+I+R` nonzero and rates `beta`, `sigma`, `gamma`, returns exactly
`(-beta*S*I/N, beta*S*I/N - sigma*E, sigma*E - gamma*I, gamma*I)`. -/
theorem C1_derivative_formula (S E Iv Rv t beta sigma gamma N : ℚ)
    (hN : N = S + E + Iv + Rv) (hN0 : N ≠ 0) :
    ode_model ⟨S, E, Iv, Rv⟩ t beta sigma gamma =
      ⟨-beta * S * Iv / N, beta * S * Iv / N - sigma * E,
        sigma * E - gamma * Iv, gamma * Iv⟩ := by
  subst hN; rfl

theorem C1_derivative_formula_witness :
    (6 : ℚ) = 3 + 2 + 1 + 0 ∧ (6 : ℚ) ≠ 0 ∧
      ode_model ⟨3, 2, 1, 0⟩ 0 2 5 7 =
        ⟨-2 * 3 * 1 / 6, 2 * 3 * 1 / 6 - 5 * 2, 5 * 2 - 7 * 1, 7 * 1⟩ :=
  ⟨by norm_num, by norm_num,
    C1_derivative_formula 3 2 1 0 0 2 5 7 6 (by norm_num) (by norm_num)⟩

/-- C2: the four components returned by the derivative function sum to
zero exactly for every state with `S+E+I+R` nonzero, so the continuous
model conserves the total population `N`. -/
theorem C2_conservation (z : State) (t beta sigma gamma : ℚ)
    (hN0 : z.S + z.E + z.I + z.R ≠ 0) :
    (ode_model z t beta sigma gamma).S + (ode_model z t beta sigma gamma).E +
      (ode_model z t beta sigma gamma).I + (ode_model z t beta sigma gamma).R = 0 := by
  simp only [ode_model]
  ring

theorem C2_conservation_witness :
    ((⟨3, 2, 1, 0⟩ : State).S + (⟨3, 2, 1, 0⟩ : State).E +
        (⟨3, 2, 1, 0⟩ : State).I + (⟨3, 2, 1, 0⟩ : State).R ≠ 0) ∧
      ((ode_model ⟨3, 2, 1, 0⟩ 0 2 5 7).S + (ode_model ⟨3, 2, 1, 0⟩ 0 2 5 7).E +
        (ode_model ⟨3, 2, 1, 0⟩ 0 2 5 7).I + (ode_model ⟨3, 2, 1, 0⟩ 0 2 5 7).R = 0) :=
  ⟨by norm_num, C2_conservation ⟨3, 2, 1, 0⟩ 0 2 5 7 (by norm_num)⟩

/-- C3: for every initial condition `(E0, I0, R0, N)` and non-empty time
grid, the trajectory returned by `ode_solver` (with any solver satisfying
the documented first-row contract of `odeint`) has its state at index 0
exactly equal to `(N - (E0+I0+R0), E0, I0, R0)`. -/
theorem C3_initial_state (odeint : OdeIntFn) (hfirst : OdeIntFirstRow odeint)
    (tspan : List ℚ) (ht : tspan ≠ []) (initE initI initR initN : ℚ) (P : Params) :
    (ode_solver odeint tspan (initE, initI, initR, initN) P).head? =
      some ⟨initN - (initE + initI + initR), initE, initI, initR⟩ := by
  exact hfirst ode_model _ tspan P.beta P.sigma P.gamma ht

theorem C3_initial_state_witness :
    OdeIntFirstRow odeintEuler ∧ ([0, 1] : List ℚ) ≠ [] ∧
      (ode_solver odeintEuler [0, 1] (2, 3, 4, 100) ⟨1, 1, 1⟩).head? =
        some ⟨100 - (2 + 3 + 4), 2, 3, 4⟩ :=
  ⟨odeintEuler_firstRow, by simp,
    C3_initial_state odeintEuler odeintEuler_firstRow [0, 1] (by simp) 2 3 4 100 ⟨1, 1, 1⟩⟩

/-- The `(I, R)` columns of a trajectory: `sol[:, 2:4]` in the notebook. -/
def solIR (sol : List State) : List (ℚ × ℚ) := sol.map (fun z => (z.I, z.R))

/-- numpy subtraction of two arrays of shape `(n, 2)` and `(m, 2)`,
with broadcasting along the first axis: defined when `n = m`, or when
either array has a single row (which is then repeated); otherwise the
operation raises (here: `none`). -/
def npSubRows (a b : List (ℚ × ℚ)) : Option (List (ℚ × ℚ)) :=
  if a.length = b.length then
    some (List.zipWith (fun p q => (p.1 - q.1, p.2 - q.2)) a b)
  else if b.length = 1 then
    some (a.map (fun p => (p.1 - (b.headD (0, 0)).1, p.2 - (b.headD (0, 0)).2)))
  else if a.length = 1 then
    some (b.map (fun q => ((a.headD (0, 0)).1 - q.1, (a.headD (0, 0)).2 - q.2)))
  else none

/-- `numpy.ravel` of an `(n, 2)` array: row-major flattening. -/
def ravel (l : List (ℚ × ℚ)) : List ℚ := l.flatMap (fun p => [p.1, p.2])

/-- `reshape(data.shape)` applied to a flat vector of length `2n`:
regroups consecutive pairs into rows. -/
def reshape2 : List ℚ → List (ℚ × ℚ)
  | a :: b :: rest => (a, b) :: reshape2 rest
  | _ => []

/-- `error(params, initial_conditions, tspan, data)` from the notebook:
`sol = ode_solver(tspan, initial_conditions, params);
return (sol[:, 2:4] - data).ravel()`. The numpy subtraction is partial
(broadcast failure raises), hence the `Option`. -/
def error (odeint : OdeIntFn) (params : Params) (initial_conditions : ℚ × ℚ × ℚ × ℚ)
    (tspan : List ℚ) (data : List (ℚ × ℚ)) : Option (List ℚ) :=
  let sol := ode_solver odeint tspan initial_conditions params
  (npSubRows (solIR sol) data).map ravel

theorem ravel_length (l : List (ℚ × ℚ)) : (ravel l).length = 2 * l.length := by
  induction l with
  | nil => rfl
  | cons p rest ih => simp [ravel] at ih ⊢; omega

theorem ravel_getElem_even :
    ∀ (l : List (ℚ × ℚ)) (k : ℕ) (x : ℚ × ℚ), l[k]? = some x →
      (ravel l)[2 * k]? = some x.1 := by
  intro l
  induction l with
  | nil => intro k x hx; simp at hx
  | cons p rest ih =>
      intro k x hx
      cases k with
      | zero => simp_all [ravel]
      | succ k =>
          simp only [List.getElem?_cons_succ] at hx
          have h2 : 2 * (k + 1) = 2 * k + 1 + 1 := by ring
          simpa [ravel, h2] using ih k x hx

theorem ravel_getElem_odd :
    ∀ (l : List (ℚ × ℚ)) (k : ℕ) (x : ℚ × ℚ), l[k]? = some x →
      (ravel l)[2 * k + 1]? = some x.2 := by
  intro l
  induction l with
  | nil => intro k x hx; simp at hx
  | cons p rest ih =>
      intro k x hx
      cases k with
      | zero => simp_all [ravel]
      | succ k =>
          simp only [List.getElem?_cons_succ] at hx
          have h2 : 2 * (k + 1) + 1 = 2 * k + 1 + 1 + 1 := by ring
          simpa [ravel, h2] using ih k x hx

theorem zipWith_getElem_some {α β γ : Type} (f : α → β → γ) :
    ∀ (a : List α) (b : List β) (k : ℕ) (x : α) (y : β),
      a[k]? = some x → b[k]? = some y → (List.zipWith f a b)[k]? = some (f x y) := by
  intro a
  induction a with
  | nil => intro b k x y hx; simp at hx
  | cons p arest ih =>
      intro b k x y hx hy
      cases b with
      | nil => simp at hy
      | cons q brest =>
          cases k with
          | zero => simp_all
          | succ k => simp_all [ih brest k x y]

theorem reshape2_ravel : ∀ (l : List (ℚ × ℚ)), reshape2 (ravel l) = l := by
  intro l
  induction l with
  | nil => rfl
  | cons p rest ih => simp [ravel, reshape2] at ih ⊢; exact ih

theorem ode_solver_length (odeint : OdeIntFn) (hlen : OdeIntLength odeint)
    (tspan : List ℚ) (ic : ℚ × ℚ × ℚ × ℚ) (P : Params) :
    (ode_solver odeint tspan ic P).length = tspan.length := by
  simp only [ode_solver]
  exact hlen _ _ _ _ _ _

/-- C5: with one simulated state per grid point and matching lengths, the
residual function returns a flat vector of length `2*T` whose entry at
`2k` is `(simulated I − observed I)` of day `k` and at `2k+1` is
`(simulated R − observed R)` of day `k`: row-major order
`(day0 I, day0 R, day1 I, day1 R, ...)`. -/
theorem C5_residual_flattening (odeint : OdeIntFn) (hlen : OdeIntLength odeint)
    (P : Params) (ic : ℚ × ℚ × ℚ × ℚ) (tspan : List ℚ) (data : List (ℚ × ℚ))
    (hT : tspan.length = data.length) :
    ∃ v, error odeint P ic tspan data = some v ∧ v.length = 2 * data.length ∧
      ∀ (k : ℕ) (z : State) (d : ℚ × ℚ),
        (ode_solver odeint tspan ic P)[k]? = some z → data[k]? = some d →
          v[2 * k]? = some (z.I - d.1) ∧ v[2 * k + 1]? = some (z.R - d.2) := by
  have hsl : (ode_solver odeint tspan ic P).length = data.length := by
    rw [ode_solver_length odeint hlen, hT]
  have hIR : (solIR (ode_solver odeint tspan ic P)).length = data.length := by
    simpa [solIR] using hsl
  refine ⟨ravel (List.zipWith (fun p q => (p.1 - q.1, p.2 - q.2))
      (solIR (ode_solver odeint tspan ic P)) data), ?_, ?_, ?_⟩
  · simp [error, npSubRows, hIR]
  · simp [ravel_length, List.length_zipWith, hIR, hsl]
  · intro k z d hz hd
    have hzi : (solIR (ode_solver odeint tspan ic P))[k]? = some (z.I, z.R) := by
      simp [solIR, hz]
    have hmain := zipWith_getElem_some (fun p q => (p.1 - q.1, p.2 - q.2))
      (solIR (ode_solver odeint tspan ic P)) data k (z.I, z.R) d hzi hd
    exact ⟨ravel_getElem_even _ k _ hmain, ravel_getElem_odd _ k _ hmain⟩

theorem C5_residual_flattening_witness :
    OdeIntLength odeintEuler ∧ ([(0 : ℚ), 1] : List ℚ).length = [((0 : ℚ), (0 : ℚ)), (1, 1)].length ∧
      (∃ v, error odeintEuler ⟨0, 0, 0⟩ (1, 2, 3, 10) [0, 1] [(0, 0), (1, 1)] = some v ∧
        v.length = 2 * [((0 : ℚ), (0 : ℚ)), (1, 1)].length ∧
        ∀ (k : ℕ) (z : State) (d : ℚ × ℚ),
          (ode_solver odeintEuler [0, 1] (1, 2, 3, 10) ⟨0, 0, 0⟩)[k]? = some z →
            [((0 : ℚ), (0 : ℚ)), (1, 1)][k]? = some d →
            v[2 * k]? = some (z.I - d.1) ∧ v[2 * k + 1]? = some (z.R - d.2)) :=
  ⟨odeintEuler_length, rfl,
    C5_residual_flattening odeintEuler odeintEuler_length ⟨0, 0, 0⟩ (1, 2, 3, 10)
      [0, 1] [(0, 0), (1, 1)] rfl⟩

theorem zipWith_add_sub_cancel :
    ∀ (sim data : List (ℚ × ℚ)), sim.length = data.length →
      List.zipWith (fun d r => (d.1 + r.1, d.2 + r.2)) data
        (List.zipWith (fun p q => (p.1 - q.1, p.2 - q.2)) sim data) = sim := by
  intro sim
  induction sim with
  | nil =>
      intro data h
      have : data = [] := List.length_eq_zero.mp h.symm
      simp [this]
  | cons p rest ih =>
      intro data h
      cases data with
      | nil => simp at h
      | cons d drest =>
          simp only [List.length_cons, Nat.succ.injEq] at h
          obtain ⟨p1, p2⟩ := p
          simp [ih drest h]

/-- C10: adding the residual vector, reshaped back to the observed
array's shape, to the observed array reproduces exactly the simulated
`(I, R)` columns of the trajectory. -/
theorem C10_residual_roundtrip (odeint : OdeIntFn) (hlen : OdeIntLength odeint)
    (P : Params) (ic : ℚ × ℚ × ℚ × ℚ) (tspan : List ℚ) (data : List (ℚ × ℚ))
    (hT : tspan.length = data.length) (v : List ℚ)
    (hv : error odeint P ic tspan data = some v) :
    List.zipWith (fun d r => (d.1 + r.1, d.2 + r.2)) data (reshape2 v) =
      solIR (ode_solver odeint tspan ic P) := by
  have hIR : (solIR (ode_solver odeint tspan ic P)).length = data.length := by
    simp [solIR, ode_solver_length odeint hlen, hT]
  simp only [error, npSubRows, hIR, if_true, eq_self_iff_true, Option.map_some] at hv
  have hv' := (Option.some.injEq _ _).mp hv
  rw [← hv', reshape2_ravel]
  exact zipWith_add_sub_cancel _ _ hIR

theorem C10_residual_roundtrip_witness :
    OdeIntLength odeintEuler ∧ ([(0 : ℚ), 1] : List ℚ).length = [((0 : ℚ), (0 : ℚ)), (0, 0)].length ∧
      error odeintEuler ⟨0, 0, 0⟩ (1, 2, 3, 10) [0, 1] [(0, 0), (0, 0)] = some [2, 3, 2, 3] ∧
      List.zipWith (fun d r => (d.1 + r.1, d.2 + r.2)) [((0 : ℚ), (0 : ℚ)), (0, 0)]
          (reshape2 [2, 3, 2, 3]) =
        solIR (ode_solver odeintEuler [0, 1] (1, 2, 3, 10) ⟨0, 0, 0⟩) :=
  ⟨odeintEuler_length, rfl,
    by norm_num [error, ode_solver, odeintEuler, eulerAux, ode_model, State.add,
      State.smul, solIR, npSubRows, ravel],
    C10_residual_roundtrip odeintEuler odeintEuler_length ⟨0, 0, 0⟩ (1, 2, 3, 10)
      [0, 1] [(0, 0), (0, 0)] rfl [2, 3, 2, 3]
      (by norm_num [error, ode_solver, odeintEuler, eulerAux, ode_model, State.add,
        State.smul, solIR, npSubRows, ravel])⟩

/-- C6 amended: when the grid length and the observed length differ and
neither is 1, the numpy subtraction inside `error` cannot broadcast and
the call fails (after the integration has already run); a numpy
`ValueError`, represented here by `none`. -/
theorem C6_length_mismatch (odeint : OdeIntFn) (hlen : OdeIntLength odeint)
    (P : Params) (ic : ℚ × ℚ × ℚ × ℚ) (tspan : List ℚ) (data : List (ℚ × ℚ))
    (h1 : tspan.length ≠ data.length) (h2 : data.length ≠ 1) (h3 : tspan.length ≠ 1) :
    error odeint P ic tspan data = none := by
  have hIR : (solIR (ode_solver odeint tspan ic P)).length = tspan.length := by
    simp [solIR, ode_solver_length odeint hlen]
  simp [error, npSubRows, hIR, h1, h2, h3]

theorem C6_length_mismatch_witness :
    OdeIntLength odeintEuler ∧
      ([(0 : ℚ), 1, 2] : List ℚ).length ≠ [((0 : ℚ), (0 : ℚ)), (0, 0)].length ∧
      [((0 : ℚ), (0 : ℚ)), (0, 0)].length ≠ 1 ∧ ([(0 : ℚ), 1, 2] : List ℚ).length ≠ 1 ∧
      error odeintEuler ⟨0, 0, 0⟩ (0, 0, 0, 1) [0, 1, 2] [(0, 0), (0, 0)] = none :=
  ⟨odeintEuler_length, by decide, by decide, by decide,
    C6_length_mismatch odeintEuler odeintEuler_length ⟨0, 0, 0⟩ (0, 0, 0, 1)
      [0, 1, 2] [(0, 0), (0, 0)] (by decide) (by decide) (by decide)⟩

/-- C6 counterexample: a 3-point grid against a single observed row has
mismatched lengths, yet `error` does not fail — numpy broadcasting
repeats the single row and the call returns a 6-entry residual vector. -/
theorem C6_counterexample :
    ([(0 : ℚ), 1, 2] : List ℚ).length ≠ [((5 : ℚ), (7 : ℚ))].length ∧
      error odeintEuler ⟨0, 0, 0⟩ (0, 0, 0, 1) [0, 1, 2] [(5, 7)] =
        some [-5, -7, -5, -7, -5, -7] := by
  refine ⟨by decide, ?_⟩
  norm_num [error, ode_solver, odeintEuler, eulerAux, ode_model, State.add,
    State.smul, solIR, npSubRows, ravel]

/-- A numpy double, abstracted: `some q` is a finite value of exact
magnitude `q`; `none` is a non-finite result (NaN from `0/0`, or ±inf
from a nonzero numerator over zero). numpy raises no exception in either
case — it only emits a runtime warning and keeps computing. -/
abbrev NpF := Option ℚ

/-- numpy addition: finite on finite operands, non-finite otherwise. -/
def npAdd : NpF → NpF → NpF
  | some a, some b => some (a + b)
  | _, _ => none

/-- numpy subtraction, with the same non-finite propagation. -/
def npSub : NpF → NpF → NpF
  | some a, some b => some (a - b)
  | _, _ => none

/-- numpy multiplication, with the same non-finite propagation. -/
def npMul : NpF → NpF → NpF
  | some a, some b => some (a * b)
  | _, _ => none

/-- numpy negation. -/
def npNeg : NpF → NpF
  | some a => some (-a)
  | none => none

/-- numpy division: any division by zero yields a non-finite value
(NaN for `0/0`, ±inf otherwise) instead of raising. -/
def npDiv : NpF → NpF → NpF
  | some a, some b => if b = 0 then none else some (a / b)
  | _, _ => none

/-- `ode_model` re-read with numpy double semantics, operation for
operation: `N = S+E+I+R`, `dSdt = -beta*S*I/N`,
`dEdt = beta*S*I/N - sigma*E`, `dIdt = sigma*E - gamma*I`,
`dRdt = gamma*I`. -/
def ode_model_np (z : NpF × NpF × NpF × NpF) (t : NpF) (beta sigma gamma : NpF) :
    NpF × NpF × NpF × NpF :=
  let N := npAdd (npAdd (npAdd z.1 z.2.1) z.2.2.1) z.2.2.2
  (npDiv (npMul (npMul (npNeg beta) z.1) z.2.2.1) N,
    npSub (npDiv (npMul (npMul beta z.1) z.2.2.1) N) (npMul sigma z.2.1),
    npSub (npMul sigma z.2.1) (npMul gamma z.2.2.1),
    npMul gamma z.2.2.1)

/-- C4 counterexample: at the degenerate state `S=E=I=R=0` (total
population `N = 0`) the derivative function does not raise any error —
it evaluates `0/0` under numpy semantics and returns NaN in the `dS` and
`dE` slots (and exact `0` in `dI`, `dR`), so NaN enters the solver
instead of a `NumericalError` being raised. -/
theorem C4_counterexample :
    ode_model_np (some 0, some 0, some 0, some 0) (some 0) (some 1) (some 1) (some 1) =
      (none, none, some 0, some 0) := by
  norm_num [ode_model_np, npAdd, npMul, npDiv, npSub, npNeg]

/-- C4 amended: for every finite rate values `beta`, `sigma`, `gamma` and
time, the derivative function at the all-zero state (N = 0) returns NaN
for `dS` and `dE` and `0` for `dI` and `dR`; no exception is raised (the
notebook has no error handling), so the non-finite values propagate into
the integration instead of a `NumericalError`. -/
theorem C4_nan_propagation (t b s g : ℚ) :
    ode_model_np (some 0, some 0, some 0, some 0) (some t) (some b) (some s) (some g) =
      (none, none, some 0, some 0) := by
  norm_num [ode_model_np, npAdd, npMul, npDiv, npSub, npNeg]

/-- The chi-square statistic of the optimizer's fit report — the sum of
squared residual entries. The optimizer itself is the external `lmfit`
library's `minimize`; its statistics are fixed here by the notebook's
recorded `report_fit` output (chi-square 25843295.5 over 90 residual
entries with 3 varied parameters). -/
def chisqr (residual : List ℝ) : ℝ := (residual.map (fun r => r ^ 2)).sum

/-- The reported Akaike information criterion,
`AIC = n·ln(chisqr/n) + 2·nvarys` with `n` the number of residual entries
and `nvarys` the number of varied parameters — no extra noise-variance
term. The penalty is pinned by the notebook's recorded fit report:
`1137.09769 = 90·ln(25843295.5/90) + 2·3` exactly, while a `nvarys + 1`
penalty would give `1139.098`. -/
noncomputable def fitAIC (residual : List ℝ) (nvarys : ℕ) : ℝ :=
  residual.length * Real.log (chisqr residual / residual.length) + 2 * nvarys

/-- The reported Bayesian information criterion — the same expression
with `nvarys·ln(n)` in place of `2·nvarys`. Pinned by the recorded fit
report: `1144.59712 = 90·ln(25843295.5/90) + ln(90)·3` exactly, while a
`nvarys + 1` penalty would give `1149.097`. -/
noncomputable def fitBIC (residual : List ℝ) (nvarys : ℕ) : ℝ :=
  residual.length * Real.log (chisqr residual / residual.length) +
    Real.log residual.length * nvarys

/-- Consistency with the recorded report: the BIC−AIC gap is
`(ln n − 2)·nvarys`; the recorded `1144.59712 − 1137.09769 = 7.49943`
equals `(ln 90 − 2)·3` to the report's precision. -/
theorem fitBIC_sub_fitAIC (residual : List ℝ) (nvarys : ℕ) :
    fitBIC residual nvarys - fitAIC residual nvarys =
      (Real.log residual.length - 2) * nvarys := by
  simp only [fitAIC, fitBIC]
  ring

theorem sum_map_getD (f : ℝ → ℝ) :
    ∀ (l : List ℝ), (l.map f).sum = ∑ i in Finset.range l.length, f (l.getD i 0) := by
  intro l
  induction l with
  | nil => simp
  | cons a rest ih => simp [Finset.sum_range_succ', ih, add_comm]

/-- C7 counterexample: for the residual vector `[1, 1]` (so `n = 2`,
`RSS = 2`, `ln(RSS/n) = 0`) with zero varied parameters, the reported
criteria are `AIC = 0` and `BIC = 0`, whereas the claimed formulas with
`k = nvarys + 1` give `2` and `ln 2 ≠ 0`: the extra noise-variance term
in the claim is refuted. -/
theorem C7_counterexample :
    fitAIC [1, 1] 0 ≠
        ([(1 : ℝ), 1].length : ℝ) *
            Real.log (chisqr [1, 1] / ([(1 : ℝ), 1].length : ℝ)) + 2 * ((0 : ℕ) + 1) ∧
      fitBIC [1, 1] 0 ≠
        ([(1 : ℝ), 1].length : ℝ) *
            Real.log (chisqr [1, 1] / ([(1 : ℝ), 1].length : ℝ)) +
          Real.log ([(1 : ℝ), 1].length : ℝ) * ((0 : ℕ) + 1) := by
  have hlog2 : (0 : ℝ) < Real.log 2 := Real.log_pos (by norm_num)
  constructor
  · norm_num [fitAIC, chisqr, Real.log_one]
  · norm_num [fitBIC, chisqr, Real.log_one]
    intro h
    rw [h] at hlog2
    exact lt_irrefl _ hlog2

/-- C7 amended: for a fit with residual vector of length `n`, `nvarys`
free parameters and residual sum of squares `RSS = ∑ rᵢ²`, the reported
information criteria are `AIC = n·ln(RSS/n) + 2k` and
`BIC = n·ln(RSS/n) + k·ln(n)` with `k = nvarys`, the number of free
parameters alone — no extra term for the noise variance. -/
theorem C7_information_criteria (residual : List ℝ) (nvarys : ℕ) :
    fitAIC residual nvarys =
        residual.length *
            Real.log ((∑ i in Finset.range residual.length, residual.getD i 0 ^ 2) /
              residual.length) + 2 * nvarys ∧
      fitBIC residual nvarys =
        residual.length *
            Real.log ((∑ i in Finset.range residual.length, residual.getD i 0 ^ 2) /
              residual.length) + Real.log residual.length * nvarys := by
  constructor <;> simp [fitAIC, fitBIC, chisqr, sum_map_getD]

/-- `numpy.mean` of a 1-d array: sum divided by length. -/
def npMean (l : List ℚ) : ℚ := l.sum / l.length

/-- Elementwise subtraction of two equal-length 1-d arrays. -/
def colSub (a b : List ℚ) : List ℚ := List.zipWith (fun x y => x - y) a b

/-- The "Fitted MAE" cell, for one column:
`np.mean(np.abs(sim[:days] - obs[:days]))`. -/
def fittedMAE (sim obs : List ℚ) (days : ℕ) : ℚ :=
  npMean ((colSub (sim.take days) (obs.take days)).map (fun x => |x|))

/-- The "Fitted RMSE" cell, for one column:
`np.sqrt(np.mean((sim[:days] - obs[:days])**2))`. -/
noncomputable def fittedRMSE (sim obs : List ℚ) (days : ℕ) : ℝ :=
  Real.sqrt ((npMean ((colSub (sim.take days) (obs.take days)).map (fun x => x ^ 2)) : ℚ) : ℝ)

/-- The "Predicted MAE" cell, for one column:
`np.mean(np.abs(sim[days:len(obs)] - obs[days:]))`. -/
def predictedMAE (sim obs : List ℚ) (days : ℕ) : ℚ :=
  npMean ((colSub ((sim.drop days).take (obs.length - days)) (obs.drop days)).map
    (fun x => |x|))

/-- The "Predicted RMSE" cell, for one column:
`np.sqrt(np.mean((sim[days:len(obs)] - obs[days:])**2))`. -/
noncomputable def predictedRMSE (sim obs : List ℚ) (days : ℕ) : ℝ :=
  Real.sqrt ((npMean ((colSub ((sim.drop days).take (obs.length - days)) (obs.drop days)).map
    (fun x => x ^ 2)) : ℚ) : ℝ)

theorem colSub_take_map_sum (f : ℚ → ℚ) :
    ∀ (n : ℕ) (a b : List ℚ), n ≤ a.length → n ≤ b.length →
      ((colSub (a.take n) (b.take n)).map f).sum =
        ∑ i in Finset.range n, f (a.getD i 0 - b.getD i 0) := by
  intro n
  induction n with
  | zero => intro a b _ _; simp [colSub]
  | succ n ih =>
      intro a b ha hb
      cases a with
      | nil => simp at ha
      | cons x a' =>
          cases b with
          | nil => simp at hb
          | cons y b' =>
              simp only [List.length_cons, Nat.succ_le_succ_iff] at ha hb
              have ih' := ih a' b' ha hb
              simp only [colSub] at ih' ⊢
              rw [Finset.sum_range_succ']
              simp only [List.getD_cons_succ, List.getD_cons_zero, List.take_succ_cons,
                List.zipWith_cons_cons, List.map_cons, List.sum_cons, ih']
              exact add_comm _ _

theorem colSub_take_map_length (f : ℚ → ℚ) (n : ℕ) (a b : List ℚ)
    (ha : n ≤ a.length) (hb : n ≤ b.length) :
    ((colSub (a.take n) (b.take n)).map f).length = n := by
  simp [colSub, List.length_zipWith, List.length_take, Nat.min_eq_left ha,
    Nat.min_eq_left hb]

theorem colSub_take_mean (f : ℚ → ℚ) (n : ℕ) (a b : List ℚ)
    (ha : n ≤ a.length) (hb : n ≤ b.length) :
    npMean ((colSub (a.take n) (b.take n)).map f) =
      (∑ i in Finset.range n, f (a.getD i 0 - b.getD i 0)) / n := by
  rw [npMean, colSub_take_map_sum f n a b ha hb, colSub_take_map_length f n a b ha hb]

theorem getD_drop_q (a : List ℚ) (d i : ℕ) :
    (a.drop d).getD i 0 = a.getD (d + i) 0 := by
  simp [List.getD_eq_getElem?_getD, List.getElem?_drop]

theorem drop_take_self (l : List ℚ) (d : ℕ) :
    (l.drop d).take (l.length - d) = l.drop d := by
  have h : (l.drop d).length = l.length - d := List.length_drop d l
  rw [← h, List.take_length]

/-- C9: for one column, the error-metric cells compute MAE as the mean of
absolute differences and RMSE as the square root of the mean of squared
differences between simulated and observed values, independently over the
fit window (indices `0..days-1`) and the prediction window (indices
`days..len(obs)-1`). -/
theorem C9_error_metrics (sim obs : List ℚ) (days : ℕ)
    (hd : days ≤ obs.length) (hs : obs.length ≤ sim.length) :
    fittedMAE sim obs days =
        (∑ i in Finset.range days, |sim.getD i 0 - obs.getD i 0|) / days ∧
      fittedRMSE sim obs days =
        Real.sqrt (((∑ i in Finset.range days, (sim.getD i 0 - obs.getD i 0) ^ 2) / days : ℚ)) ∧
      predictedMAE sim obs days =
        (∑ i in Finset.range (obs.length - days),
            |sim.getD (days + i) 0 - obs.getD (days + i) 0|) /
          ((obs.length - days : ℕ) : ℚ) ∧
      predictedRMSE sim obs days =
        Real.sqrt (((∑ i in Finset.range (obs.length - days),
            (sim.getD (days + i) 0 - obs.getD (days + i) 0) ^ 2) /
          ((obs.length - days : ℕ) : ℚ) : ℚ)) := by
  have hd' : days ≤ sim.length := le_trans hd hs
  have hpa : obs.length - days ≤ (sim.drop days).length := by
    rw [List.length_drop]
    exact Nat.sub_le_sub_right hs days
  have hpb : obs.length - days ≤ (obs.drop days).length := by
    rw [List.length_drop]
  have hobs : (obs.drop days) = (obs.drop days).take (obs.length - days) := by
    conv_rhs => rw [← List.length_drop days obs]
    rw [List.take_length]
  refine ⟨?_, ?_, ?_, ?_⟩
  · rw [fittedMAE, colSub_take_mean _ days sim obs hd' hd]
  · rw [fittedRMSE, colSub_take_mean _ days sim obs hd' hd]
  · rw [predictedMAE, hobs, colSub_take_mean _ (obs.length - days) _ _ hpa hpb]
    simp only [getD_drop_q]
  · rw [predictedRMSE, hobs, colSub_take_mean _ (obs.length - days) _ _ hpa hpb]
    simp only [getD_drop_q]

theorem C9_error_metrics_witness :
    (1 ≤ ([(0 : ℚ), 3] : List ℚ).length) ∧
      (([(0 : ℚ), 3] : List ℚ).length ≤ ([(1 : ℚ), 2] : List ℚ).length) ∧
      (fittedMAE [1, 2] [0, 3] 1 =
          (∑ i in Finset.range 1,
            |([(1 : ℚ), 2] : List ℚ).getD i 0 - ([(0 : ℚ), 3] : List ℚ).getD i 0|) / 1 ∧
        fittedRMSE [1, 2] [0, 3] 1 =
          Real.sqrt (((∑ i in Finset.range 1,
            (([(1 : ℚ), 2] : List ℚ).getD i 0 - ([(0 : ℚ), 3] : List ℚ).getD i 0) ^ 2) / 1 : ℚ)) ∧
        predictedMAE [1, 2] [0, 3] 1 =
          (∑ i in Finset.range (([(0 : ℚ), 3] : List ℚ).length - 1),
              |([(1 : ℚ), 2] : List ℚ).getD (1 + i) 0 - ([(0 : ℚ), 3] : List ℚ).getD (1 + i) 0|) /
            ((([(0 : ℚ), 3] : List ℚ).length - 1 : ℕ) : ℚ) ∧
        predictedRMSE [1, 2] [0, 3] 1 =
          Real.sqrt (((∑ i in Finset.range (([(0 : ℚ), 3] : List ℚ).length - 1),
              (([(1 : ℚ), 2] : List ℚ).getD (1 + i) 0 -
                ([(0 : ℚ), 3] : List ℚ).getD (1 + i) 0) ^ 2) /
            ((([(0 : ℚ), 3] : List ℚ).length - 1 : ℕ) : ℚ) : ℚ))) :=
  ⟨by decide, by decide, C9_error_metrics [1, 2] [0, 3] 1 (by decide) (by decide)⟩

end SEIR
